import Mathlib

/-!
Shallow embedding of the antimeridian-aware bounding-box algebra of
`src/BBox.ts` (class `BBox`, helpers `denormalizeLonRange` and
`normalizeLonRange`).  Coordinates are modelled as rationals; the
floating-point NaN behaviour of the constructor checks is modelled
separately by the type `JsNum` below.
-/

namespace GeoBBox

/-- A bounding box, the four stored numbers of `BBox.bbox` in source order
`[lon1, lat1, lon2, lat2]`. -/
structure BBox where
  lon1 : ℚ
  lat1 : ℚ
  lon2 : ℚ
  lat2 : ℚ
deriving DecidableEq, Repr

/-- The validation performed by the `BBox` constructor (`BBox.ts` lines
14-41): it throws iff one of the seven listed comparisons holds, so the
construction succeeds iff all of them are false. -/
def bboxValid (b : BBox) : Bool :=
  !(b.lat1 > b.lat2) && !(b.lat1 < -90) && !(b.lat1 > 90) &&
  !(b.lon1 < -180) && !(b.lon1 > 180) && !(b.lon2 < -180) && !(b.lon2 > 180)

/-- A JavaScript number as seen by the constructor checks: either NaN or an
ordinary (rational) value. -/
inductive JsNum where
  | nan : JsNum
  | val : ℚ → JsNum
deriving DecidableEq, Repr

/-- IEEE-754 ordered comparison: any comparison involving NaN is false. -/
def JsNum.ltb : JsNum → JsNum → Bool
  | JsNum.val a, JsNum.val b => a < b
  | _, _ => false

/-- IEEE-754 ordered comparison: any comparison involving NaN is false. -/
def JsNum.gtb : JsNum → JsNum → Bool
  | JsNum.val a, JsNum.val b => b < a
  | _, _ => false

/-- The constructor validation of `BBox.ts` lines 14-41 over JavaScript
numbers, in argument order `lon1 lat1 lon2 lat2`: each `throw` guard is one
`gtb`/`ltb` comparison, so NaN operands make every guard false. -/
def bboxValidJs (lon1 lat1 lon2 lat2 : JsNum) : Bool :=
  !(lat1.gtb lat2) && !(lat1.ltb (JsNum.val (-90))) && !(lat1.gtb (JsNum.val 90)) &&
  !(lon1.ltb (JsNum.val (-180))) && !(lon1.gtb (JsNum.val 180)) &&
  !(lon2.ltb (JsNum.val (-180))) && !(lon2.gtb (JsNum.val 180))

/-- `BBox.inverted` (`BBox.ts` line 111): `lon1 > lon2`. -/
def inverted (b : BBox) : Bool := b.lon2 < b.lon1

/-- `BBox.wrapsAround` (`BBox.ts` line 119):
`inverted || lon1 === -180 || lon2 === 180`. -/
def wrapsAround (b : BBox) : Bool :=
  inverted b || b.lon1 == -180 || b.lon2 == 180

/-- `BBox.center` (`BBox.ts` lines 132-137), as a `(lon, lat)` pair. -/
def center (b : BBox) : ℚ × ℚ :=
  (if inverted b then (b.lon1 + b.lon2 + 360) / 2 else (b.lon1 + b.lon2) / 2,
   (b.lat1 + b.lat2) / 2)

/-- `BBox.contains` (`BBox.ts` lines 152-162) applied to the point
`(lon, lat)`. -/
def contains (b : BBox) (lon lat : ℚ) : Bool :=
  if lat < b.lat1 || lat > b.lat2 then false
  else if inverted b then
    if lon > b.lon2 && lon < b.lon1 then false else true
  else
    if lon < b.lon1 || lon > b.lon2 then false else true

/-- `denormalizeLonRange` (`BBox.ts` lines 282-300): splits a possibly
inverted longitude interval into intervals on the extended line. -/
def denormalizeLonRange (r : ℚ × ℚ) : List (ℚ × ℚ) :=
  let lon1 := r.1
  let lon2 := r.2
  if lon1 = -180 ∧ lon2 = 180 then [(lon1, lon2)]
  else if lon1 = -180 then [(180, 180), (lon1 + 360, lon2 + 360)]
  else if lon2 = 180 then [(lon1 - 180, lon2 - 180), (lon1, lon2)]
  else if lon1 ≤ lon2 then [(lon1, lon2)]
  else [(lon1 - 360, lon2), (lon1, lon2 + 360)]

/-- The first loop of `normalizeLonRange` (`BBox.ts` line 307):
`while (lon < -180) lon += 360`. -/
def liftLow (x : ℚ) : ℚ :=
  if x < -180 then liftLow (x + 360) else x
termination_by (⌈(-180 - x) / 360⌉).toNat
decreasing_by
  rename_i h
  have h1 : (-180 - (x + 360)) / 360 = (-180 - x) / 360 - 1 := by ring
  have h2 : (0 : ℚ) < (-180 - x) / 360 := by
    apply div_pos <;> linarith
  have h3 : 0 < ⌈(-180 - x) / 360⌉ := Int.ceil_pos.mpr h2
  rw [h1, Int.ceil_sub_one]
  omega

/-- The second loop of `normalizeLonRange` (`BBox.ts` line 309):
`while (lon > 180) lon -= 360`. -/
def liftHigh (x : ℚ) : ℚ :=
  if x > 180 then liftHigh (x - 360) else x
termination_by (⌈(x - 180) / 360⌉).toNat
decreasing_by
  rename_i h
  have h1 : (x - 360 - 180) / 360 = (x - 180) / 360 - 1 := by ring
  have h2 : (0 : ℚ) < (x - 180) / 360 := by
    apply div_pos <;> linarith
  have h3 : 0 < ⌈(x - 180) / 360⌉ := Int.ceil_pos.mpr h2
  rw [h1, Int.ceil_sub_one]
  omega

/-- Both renormalization loops of `normalizeLonRange` run on one endpoint:
first additions, then subtractions. -/
def normLon (x : ℚ) : ℚ := liftHigh (liftLow x)

/-- `normalizeLonRange` (`BBox.ts` lines 305-313): each endpoint is folded
back into `[-180, 180]` independently. -/
def normalizeLonRange (r : ℚ × ℚ) : ℚ × ℚ := (normLon r.1, normLon r.2)

/-- `BBox.overlaps` (`BBox.ts` lines 164-175). -/
def overlaps (a b : BBox) : Bool :=
  if a.lat1 > b.lat2 then false
  else if a.lat2 < b.lat1 then false
  else
    (denormalizeLonRange (a.lon1, a.lon2)).any fun base =>
      (denormalizeLonRange (b.lon1, b.lon2)).any fun other =>
        if base.1 > other.2 then false
        else if base.2 < other.1 then false
        else true

/-- The inner closed-interval intersection of `BBox.intersect`
(`BBox.ts` lines 200-206). -/
def intersectRange (left right : ℚ × ℚ) : List (ℚ × ℚ) :=
  let lon1 := max left.1 right.1
  let lon2 := min left.2 right.2
  if lon1 > lon2 then [] else [(lon1, lon2)]

/-- The deduplication `reduce` of `BBox.intersect` (`BBox.ts` lines
219-222): keep the first occurrence of each interval, in order. -/
def dedup (l : List (ℚ × ℚ)) : List (ℚ × ℚ) :=
  l.foldl (fun acc r => if r ∈ acc then acc else acc ++ [r]) []

/-- `BBox.intersect` (`BBox.ts` lines 192-224). -/
def intersect (a b : BBox) : List BBox :=
  let lat1 := max a.lat1 b.lat1
  let lat2 := min a.lat2 b.lat2
  if lat1 > lat2 then []
  else
    let baseRanges := denormalizeLonRange (a.lon1, a.lon2)
    let otherRanges := denormalizeLonRange (b.lon1, b.lon2)
    let intersections :=
      baseRanges.flatMap fun baseRange =>
        otherRanges.flatMap fun otherRange => intersectRange baseRange otherRange
    let normalized := intersections.map normalizeLonRange
    (dedup normalized).map fun r => BBox.mk r.1 lat1 r.2 lat2

end GeoBBox

namespace GeoBBox

/-! ### Evaluation and range lemmas for the renormalization loops -/

lemma liftLow_of_not_lt (x : ℚ) (h : ¬ x < -180) : liftLow x = x := by
  rw [liftLow]; simp [h]

lemma liftLow_of_lt (x : ℚ) (h : x < -180) : liftLow x = liftLow (x + 360) := by
  rw [liftLow]; simp [h]

lemma liftHigh_of_not_gt (x : ℚ) (h : ¬ x > 180) : liftHigh x = x := by
  rw [liftHigh]; simp [h]

lemma liftHigh_of_gt (x : ℚ) (h : x > 180) : liftHigh x = liftHigh (x - 360) := by
  rw [liftHigh]; simp [h]

lemma liftLow_ge (x : ℚ) : -180 ≤ liftLow x := by
  rw [liftLow]
  split
  · exact liftLow_ge (x + 360)
  · linarith [not_lt.mp (by assumption)]
termination_by (⌈(-180 - x) / 360⌉).toNat
decreasing_by
  rename_i h
  have h1 : (-180 - (x + 360)) / 360 = (-180 - x) / 360 - 1 := by ring
  have h2 : (0 : ℚ) < (-180 - x) / 360 := by
    apply div_pos <;> linarith
  have h3 : 0 < ⌈(-180 - x) / 360⌉ := Int.ceil_pos.mpr h2
  rw [h1, Int.ceil_sub_one]
  omega

lemma liftLow_le (x : ℚ) (h : x ≤ 180) : liftLow x ≤ 180 := by
  rw [liftLow]
  split
  · exact liftLow_le (x + 360) (by linarith [show x < -180 from by assumption])
  · exact h
termination_by (⌈(-180 - x) / 360⌉).toNat
decreasing_by
  rename_i h'
  have h1 : (-180 - (x + 360)) / 360 = (-180 - x) / 360 - 1 := by ring
  have h2 : (0 : ℚ) < (-180 - x) / 360 := by
    apply div_pos <;> linarith
  have h3 : 0 < ⌈(-180 - x) / 360⌉ := Int.ceil_pos.mpr h2
  rw [h1, Int.ceil_sub_one]
  omega

lemma liftHigh_le (x : ℚ) : liftHigh x ≤ 180 := by
  rw [liftHigh]
  split
  · exact liftHigh_le (x - 360)
  · linarith [not_lt.mp (by assumption)]
termination_by (⌈(x - 180) / 360⌉).toNat
decreasing_by
  rename_i h
  have h1 : (x - 360 - 180) / 360 = (x - 180) / 360 - 1 := by ring
  have h2 : (0 : ℚ) < (x - 180) / 360 := by
    apply div_pos <;> linarith
  have h3 : 0 < ⌈(x - 180) / 360⌉ := Int.ceil_pos.mpr h2
  rw [h1, Int.ceil_sub_one]
  omega

lemma liftHigh_ge (x : ℚ) (h : -180 ≤ x) : -180 ≤ liftHigh x := by
  rw [liftHigh]
  split
  · exact liftHigh_ge (x - 360) (by linarith [show x > 180 from by assumption])
  · exact h
termination_by (⌈(x - 180) / 360⌉).toNat
decreasing_by
  rename_i h'
  have h1 : (x - 360 - 180) / 360 = (x - 180) / 360 - 1 := by ring
  have h2 : (0 : ℚ) < (x - 180) / 360 := by
    apply div_pos <;> linarith
  have h3 : 0 < ⌈(x - 180) / 360⌉ := Int.ceil_pos.mpr h2
  rw [h1, Int.ceil_sub_one]
  omega

lemma normLon_ge (x : ℚ) : -180 ≤ normLon x :=
  liftHigh_ge (liftLow x) (liftLow_ge x)

lemma normLon_le (x : ℚ) : normLon x ≤ 180 :=
  liftHigh_le (liftLow x)

lemma normLon_id (x : ℚ) (h1 : -180 ≤ x) (h2 : x ≤ 180) : normLon x = x := by
  rw [normLon, liftLow_of_not_lt x (by linarith), liftHigh_of_not_gt x (by linarith)]

lemma normalizeLonRange_id (a b : ℚ) (h1 : -180 ≤ a) (h2 : a ≤ 180)
    (h3 : -180 ≤ b) (h4 : b ≤ 180) : normalizeLonRange (a, b) = (a, b) := by
  rw [normalizeLonRange]
  simp only [normLon_id a h1 h2, normLon_id b h3 h4]

end GeoBBox

namespace GeoBBox

/-! ### Characterizations of validation and overlap -/

lemma bboxValid_iff (b : BBox) :
    bboxValid b = true ↔
      b.lat1 ≤ b.lat2 ∧ -90 ≤ b.lat1 ∧ b.lat1 ≤ 90 ∧
        -180 ≤ b.lon1 ∧ b.lon1 ≤ 180 ∧ -180 ≤ b.lon2 ∧ b.lon2 ≤ 180 := by
  simp [bboxValid, not_lt, and_assoc, neg_le]

lemma pairCheck_iff (r s : ℚ × ℚ) :
    (if r.1 > s.2 then false else if r.2 < s.1 then false else true) = true ↔
      r.1 ≤ s.2 ∧ s.1 ≤ r.2 := by
  split_ifs with h1 h2
  · simp only [Bool.false_eq_true, false_iff]
    rintro ⟨hA, _⟩
    linarith
  · simp only [Bool.false_eq_true, false_iff]
    rintro ⟨_, hB⟩
    linarith
  · simp only [true_iff]
    exact ⟨not_lt.mp h1, not_lt.mp h2⟩

lemma overlaps_iff (a b : BBox) :
    overlaps a b = true ↔
      a.lat1 ≤ b.lat2 ∧ b.lat1 ≤ a.lat2 ∧
        ∃ r ∈ denormalizeLonRange (a.lon1, a.lon2),
          ∃ s ∈ denormalizeLonRange (b.lon1, b.lon2), r.1 ≤ s.2 ∧ s.1 ≤ r.2 := by
  unfold overlaps
  split_ifs with h1 h2
  · simp only [Bool.false_eq_true, false_iff]
    rintro ⟨hA, -, -⟩
    linarith
  · simp only [Bool.false_eq_true, false_iff]
    rintro ⟨-, hB, -⟩
    linarith
  · simp only [List.any_eq_true, pairCheck_iff]
    simp [not_lt.mp h1, not_lt.mp h2]

end GeoBBox

namespace GeoBBox

/-! ### Claims -/

/-- C1: intersecting the non-wrapping base box `[-100,-90,100,90]` with the
inverted query box `[90,-10,-90,10]` returns exactly the two boxes
`[-100,-10,-90,10]` and `[90,-10,100,10]`, in that order. -/
theorem C1_intersect_two_pieces :
    intersect (BBox.mk (-100) (-90) 100 90) (BBox.mk 90 (-10) (-90) 10) =
      [BBox.mk (-100) (-10) (-90) 10, BBox.mk 90 (-10) 100 10] := by
  simp only [intersect, denormalizeLonRange, intersectRange, dedup]
  norm_num [normalizeLonRange_id]

/-- C2 counterexample: the tuple `[0, 50, 10, 100]` has `lat2 = 100 > 90`,
violating the stated invariant, yet the constructor validation accepts it:
no check bounds `lat2` from above. -/
theorem C2_counterexample :
    bboxValid (BBox.mk 0 50 10 100) = true ∧ ¬((100 : ℚ) ≤ 90) := by decide

/-- C2 (amended): construction succeeds exactly when `lat1 <= lat2`,
`lat1` lies in `[-90, 90]`, and both longitudes lie in `[-180, 180]`;
the upper bound of `lat2` is never checked, so `[0, 50, 10, 100]` is
accepted. -/
theorem C2_valid_iff (b : BBox) :
    bboxValid b = true ↔
      b.lat1 ≤ b.lat2 ∧ -90 ≤ b.lat1 ∧ b.lat1 ≤ 90 ∧
        -180 ≤ b.lon1 ∧ b.lon1 ≤ 180 ∧ -180 ≤ b.lon2 ∧ b.lon2 ≤ 180 :=
  bboxValid_iff b

/-- C3: at a range with `lon2 = 180` and `lon1 = 160`, `denormalizeLonRange`
returns the first interval shifted a half turn (180 degrees) west, namely
`[-20, 0]`, not the full-turn copy `[-200, -180]` that the documentation of
the function itself promises. -/
theorem C3_denormalize_half_turn :
    denormalizeLonRange (160, 180) = [(-20, 0), (160, 180)] ∧
      ((-200 : ℚ), (-180 : ℚ)) ∉ denormalizeLonRange (160, 180) := by
  norm_num [denormalizeLonRange]

/-- C10: the tuple `[NaN, 0, 0, 0]` is accepted by the constructor
validation, because every range-check comparison against NaN evaluates to
false. -/
theorem C10_nan_accepted :
    bboxValidJs JsNum.nan (JsNum.val 0) (JsNum.val 0) (JsNum.val 0) = true ∧
      JsNum.ltb JsNum.nan (JsNum.val (-180)) = false ∧
      JsNum.gtb JsNum.nan (JsNum.val 180) = false := by decide

/-- C5 counterexample: for the valid inverted box `[170, 0, 10, 0]`, the
center longitude is `(170 + 10 + 360)/2 = 270`, which is not mapped back
into `[-180, 180]`. -/
theorem C5_counterexample :
    bboxValid (BBox.mk 170 0 10 0) = true ∧
      inverted (BBox.mk 170 0 10 0) = true ∧
      (center (BBox.mk 170 0 10 0)).1 = 270 ∧
      ¬((center (BBox.mk 170 0 10 0)).1 ≤ 180) := by
  norm_num [bboxValid, inverted, center]

end GeoBBox

namespace GeoBBox

/-- C5 (amended): for every valid inverted box, the center longitude is
exactly `(lon1 + lon2 + 360)/2` with no renormalization; it lies between
`lon1` and `lon2 + 360` (the unwrapped span), and the box contains its own
center, so the center sits inside the wrapped span even when its raw value
exceeds 180. -/
theorem C5_center_of_inverted (b : BBox)
    (hv : bboxValid b = true) (hi : inverted b = true) :
    (center b).1 = (b.lon1 + b.lon2 + 360) / 2 ∧
      b.lon1 ≤ (center b).1 ∧ (center b).1 ≤ b.lon2 + 360 ∧
      contains b (center b).1 (center b).2 = true := by
  rw [bboxValid_iff] at hv
  obtain ⟨hlat, -, -, -, hlon1le, hlon2ge, -⟩ := hv
  have hinv : b.lon2 < b.lon1 := by simpa [inverted] using hi
  have hc1 : (center b).1 = (b.lon1 + b.lon2 + 360) / 2 := by
    simp [center, hi]
  have hc2 : (center b).2 = (b.lat1 + b.lat2) / 2 := by
    simp [center]
  refine ⟨hc1, by rw [hc1]; linarith, by rw [hc1]; linarith, ?_⟩
  simp only [contains, hi, if_true, hc1, hc2]
  have g1 : ¬((b.lat1 + b.lat2) / 2 < b.lat1) := by linarith
  have g2 : ¬((b.lat1 + b.lat2) / 2 > b.lat2) := by linarith
  have g3 : ¬((b.lon1 + b.lon2 + 360) / 2 < b.lon1) := by linarith
  simp [g1, g2, g3]

/-- C5 witness: the amended statement instantiated at the inverted box
`[170, 0, 10, 0]`. -/
theorem C5_center_of_inverted_witness :
    bboxValid (BBox.mk 170 0 10 0) = true ∧
      inverted (BBox.mk 170 0 10 0) = true ∧
      ((center (BBox.mk 170 0 10 0)).1 =
          ((BBox.mk 170 0 10 0).lon1 + (BBox.mk 170 0 10 0).lon2 + 360) / 2 ∧
        (BBox.mk 170 0 10 0).lon1 ≤ (center (BBox.mk 170 0 10 0)).1 ∧
        (center (BBox.mk 170 0 10 0)).1 ≤ (BBox.mk 170 0 10 0).lon2 + 360 ∧
        contains (BBox.mk 170 0 10 0) (center (BBox.mk 170 0 10 0)).1
          (center (BBox.mk 170 0 10 0)).2 = true) :=
  ⟨by decide, by decide,
    C5_center_of_inverted (BBox.mk 170 0 10 0) (by decide) (by decide)⟩

/-- C6: overlap is symmetric, for all boxes A and B. -/
theorem C6_overlaps_symm (a b : BBox) : overlaps a b = overlaps b a := by
  rw [Bool.eq_iff_iff, overlaps_iff, overlaps_iff]
  constructor
  · rintro ⟨h1, h2, r, hr, s, hs, hrs1, hrs2⟩
    exact ⟨h2, h1, s, hs, r, hr, hrs2, hrs1⟩
  · rintro ⟨h1, h2, r, hr, s, hs, hrs1, hrs2⟩
    exact ⟨h2, h1, s, hs, r, hr, hrs2, hrs1⟩

/-- C6 witness: symmetry instantiated at two concrete boxes. -/
theorem C6_overlaps_symm_witness :
    overlaps (BBox.mk (-100) (-10) 100 10) (BBox.mk 90 (-20) (-90) 20) =
      overlaps (BBox.mk 90 (-20) (-90) 20) (BBox.mk (-100) (-10) 100 10) :=
  C6_overlaps_symm (BBox.mk (-100) (-10) 100 10) (BBox.mk 90 (-20) (-90) 20)

end GeoBBox

namespace GeoBBox

lemma denorm_seam (lon1 lon2 : ℚ) (h2 : lon1 ≤ 180) (h3 : -180 ≤ lon2)
    (hw : lon2 < lon1 ∨ lon1 = -180 ∨ lon2 = 180) :
    ∃ r ∈ denormalizeLonRange (lon1, lon2), r.1 ≤ 180 ∧ 180 ≤ r.2 := by
  unfold denormalizeLonRange
  simp only
  split_ifs with hA hB hC hD
  · exact ⟨(lon1, lon2), by simp, by simp [hA.1, hA.2]⟩
  · exact ⟨(180, 180), by simp, by simp⟩
  · refine ⟨(lon1, lon2), by simp, by simp [hC]; exact h2⟩
  · exfalso
    rcases hw with h | h | h
    · exact absurd hD (not_le.mpr h)
    · exact hB h
    · exact hC h
  · exact ⟨(lon1, lon2 + 360), by simp, h2, by simp only; linarith⟩

end GeoBBox

namespace GeoBBox

/-- C7: two valid boxes that both wrap around the date line (inverted, or
touching -180 or 180) and whose latitude bands intersect always overlap. -/
theorem C7_wrapping_boxes_overlap (a b : BBox)
    (hva : bboxValid a = true) (hvb : bboxValid b = true)
    (hwa : wrapsAround a = true) (hwb : wrapsAround b = true)
    (hl1 : a.lat1 ≤ b.lat2) (hl2 : b.lat1 ≤ a.lat2) :
    overlaps a b = true := by
  rw [overlaps_iff]
  rw [bboxValid_iff] at hva hvb
  obtain ⟨-, -, -, -, ha2, ha3, -⟩ := hva
  obtain ⟨-, -, -, -, hb2, hb3, -⟩ := hvb
  have hwa' : a.lon2 < a.lon1 ∨ a.lon1 = -180 ∨ a.lon2 = 180 := by
    simpa [wrapsAround, inverted, or_assoc] using hwa
  have hwb' : b.lon2 < b.lon1 ∨ b.lon1 = -180 ∨ b.lon2 = 180 := by
    simpa [wrapsAround, inverted, or_assoc] using hwb
  obtain ⟨r, hr, hr1, hr2⟩ := denorm_seam a.lon1 a.lon2 ha2 ha3 hwa'
  obtain ⟨s, hs, hs1, hs2⟩ := denorm_seam b.lon1 b.lon2 hb2 hb3 hwb'
  exact ⟨hl1, hl2, r, hr, s, hs, le_trans hr1 hs2, le_trans hs1 hr2⟩

/-- C7 witness: the two inverted boxes `[160,-90,-160,90]` and
`[170,-10,-170,10]` of the spec overlap. -/
theorem C7_wrapping_boxes_overlap_witness :
    bboxValid (BBox.mk 160 (-90) (-160) 90) = true ∧
      bboxValid (BBox.mk 170 (-10) (-170) 10) = true ∧
      wrapsAround (BBox.mk 160 (-90) (-160) 90) = true ∧
      wrapsAround (BBox.mk 170 (-10) (-170) 10) = true ∧
      (BBox.mk 160 (-90) (-160) 90).lat1 ≤ (BBox.mk 170 (-10) (-170) 10).lat2 ∧
      (BBox.mk 170 (-10) (-170) 10).lat1 ≤ (BBox.mk 160 (-90) (-160) 90).lat2 ∧
      overlaps (BBox.mk 160 (-90) (-160) 90) (BBox.mk 170 (-10) (-170) 10) = true :=
  ⟨by decide, by decide, by decide, by decide, by decide, by decide,
    C7_wrapping_boxes_overlap (BBox.mk 160 (-90) (-160) 90)
      (BBox.mk 170 (-10) (-170) 10)
      (by decide) (by decide) (by decide) (by decide) (by decide) (by decide)⟩

end GeoBBox

namespace GeoBBox

/-- C4: self-intersection of the wrapping (but not inverted) box
`[160,-10,180,10]` produces, besides the box itself, the spurious box
`[-20,-10,0,10]`, whose points (such as longitude -10) the original box
does not contain: the decomposition is not semantically equivalent to the
box. -/
theorem C4_self_intersection_not_equivalent :
    intersect (BBox.mk 160 (-10) 180 10) (BBox.mk 160 (-10) 180 10) =
      [BBox.mk (-20) (-10) 0 10, BBox.mk 160 (-10) 180 10] ∧
      contains (BBox.mk (-20) (-10) 0 10) (-10) 0 = true ∧
      contains (BBox.mk 160 (-10) 180 10) (-10) 0 = false := by
  refine ⟨?_, by decide, by decide⟩
  simp only [intersect, denormalizeLonRange, intersectRange, dedup]
  norm_num [normalizeLonRange_id]

lemma foldl_dedup_mem (l acc : List (ℚ × ℚ)) (r : ℚ × ℚ)
    (h : r ∈ l.foldl (fun acc x => if x ∈ acc then acc else acc ++ [x]) acc) :
    r ∈ acc ∨ r ∈ l := by
  induction l generalizing acc with
  | nil => exact Or.inl (by simpa using h)
  | cons x l ih =>
    simp only [List.foldl_cons] at h
    rcases ih _ h with hacc | hl
    · by_cases hx : x ∈ acc
      · rw [if_pos hx] at hacc
        exact Or.inl hacc
      · rw [if_neg hx] at hacc
        rcases List.mem_append.mp hacc with h1 | h1
        · exact Or.inl h1
        · simp only [List.mem_singleton] at h1
          exact Or.inr (by simp [h1])
    · exact Or.inr (List.mem_cons_of_mem _ hl)

lemma mem_of_mem_dedup {l : List (ℚ × ℚ)} {r : ℚ × ℚ} (h : r ∈ dedup l) :
    r ∈ l := by
  rcases foldl_dedup_mem l [] r h with h1 | h1
  · simp at h1
  · exact h1

end GeoBBox

namespace GeoBBox

/-- C8: for boxes satisfying the section-3 invariants, every box produced by
`intersect` passes the constructor validation: the latitude band is the
non-empty intersection of two valid bands and every output longitude has
been folded back into `[-180, 180]` by the (terminating) renormalization
loops. -/
theorem C8_intersect_boxes_valid (a b : BBox)
    (hva : bboxValid a = true) (ha : a.lat2 ≤ 90)
    (hvb : bboxValid b = true) (hb : b.lat2 ≤ 90) :
    ∀ c ∈ intersect a b, bboxValid c = true := by
  intro c hc
  rw [bboxValid_iff] at hva hvb
  obtain ⟨-, ha1, ha2, -, -, -, -⟩ := hva
  obtain ⟨-, hb1, hb2, -, -, -, -⟩ := hvb
  simp only [intersect] at hc
  split at hc
  · simp at hc
  · rename_i hg
    simp only [List.mem_map] at hc
    obtain ⟨r, hr, rfl⟩ := hc
    have hr' := mem_of_mem_dedup hr
    simp only [List.mem_map] at hr'
    obtain ⟨q, -, rfl⟩ := hr'
    rw [bboxValid_iff]
    refine ⟨not_lt.mp hg, ?_, ?_, ?_, ?_, ?_, ?_⟩
    · exact le_trans ha1 (le_max_left _ _)
    · exact max_le ha2 hb2
    · exact normLon_ge q.1
    · exact normLon_le q.1
    · exact normLon_ge q.2
    · exact normLon_le q.2

/-- C8 witness: the theorem applied to two concrete valid boxes. -/
theorem C8_intersect_boxes_valid_witness :
    bboxValid (BBox.mk 0 0 10 10) = true ∧ (BBox.mk 0 0 10 10).lat2 ≤ 90 ∧
      bboxValid (BBox.mk 5 5 15 15) = true ∧ (BBox.mk 5 5 15 15).lat2 ≤ 90 ∧
      ∀ c ∈ intersect (BBox.mk 0 0 10 10) (BBox.mk 5 5 15 15), bboxValid c = true :=
  ⟨by decide, by decide, by decide, by decide,
    C8_intersect_boxes_valid (BBox.mk 0 0 10 10) (BBox.mk 5 5 15 15)
      (by decide) (by decide) (by decide) (by decide)⟩

end GeoBBox

namespace GeoBBox

lemma denorm_proper (lon1 lon2 : ℚ) (h1 : -180 ≤ lon1) (h2 : lon1 ≤ 180)
    (h3 : -180 ≤ lon2) (h4 : lon2 ≤ 180) :
    ∀ r ∈ denormalizeLonRange (lon1, lon2), r.1 ≤ r.2 := by
  intro r hr
  unfold denormalizeLonRange at hr
  simp only at hr
  split_ifs at hr with hA hB hC hD
  · simp only [List.mem_singleton] at hr
    subst hr
    simp only
    rw [hA.1, hA.2]
    norm_num
  · simp only [List.mem_cons, List.mem_singleton, List.not_mem_nil, or_false] at hr
    rcases hr with rfl | rfl
    · exact le_refl _
    · simp only
      rw [hB]
      linarith
  · simp only [List.mem_cons, List.mem_singleton, List.not_mem_nil, or_false] at hr
    rcases hr with rfl | rfl
    · simp only
      linarith [hC ▸ h2]
    · simp only
      linarith [hC ▸ h2]
  · simp only [List.mem_singleton] at hr
    subst hr
    exact hD
  · simp only [List.mem_cons, List.mem_singleton, List.not_mem_nil, or_false] at hr
    rcases hr with rfl | rfl
    · simp only
      linarith
    · simp only
      linarith

lemma foldl_dedup_ne_nil (l acc : List (ℚ × ℚ)) (h : acc ≠ []) :
    l.foldl (fun acc x => if x ∈ acc then acc else acc ++ [x]) acc ≠ [] := by
  induction l generalizing acc with
  | nil => simpa using h
  | cons x l ih =>
    simp only [List.foldl_cons]
    apply ih
    split
    · exact h
    · simp

lemma dedup_ne_nil (l : List (ℚ × ℚ)) (h : l ≠ []) : dedup l ≠ [] := by
  match l with
  | [] => exact absurd rfl h
  | x :: l =>
    unfold dedup
    simp only [List.foldl_cons, List.not_mem_nil, if_false, List.nil_append]
    exact foldl_dedup_ne_nil l [x] (by simp)

end GeoBBox

namespace GeoBBox

lemma mem_foldl_dedup (l acc : List (ℚ × ℚ)) (r : ℚ × ℚ)
    (h : r ∈ acc ∨ r ∈ l) :
    r ∈ l.foldl (fun acc x => if x ∈ acc then acc else acc ++ [x]) acc := by
  induction l generalizing acc with
  | nil =>
    rcases h with h | h
    · simpa using h
    · simp at h
  | cons x l ih =>
    simp only [List.foldl_cons]
    apply ih
    rcases h with h | h
    · left
      split
      · exact h
      · exact List.mem_append_left _ h
    · rcases List.mem_cons.mp h with rfl | h
      · left
        split
        · assumption
        · simp
      · exact Or.inr h

lemma mem_dedup_of_mem {l : List (ℚ × ℚ)} {r : ℚ × ℚ} (h : r ∈ l) :
    r ∈ dedup l :=
  mem_foldl_dedup l [] r (Or.inr h)

/-- C9: for valid boxes, `overlaps` is true exactly when `intersect`
returns a non-empty list. -/
theorem C9_overlaps_iff_intersect_nonempty (a b : BBox)
    (hva : bboxValid a = true) (hvb : bboxValid b = true) :
    (overlaps a b = true ↔ intersect a b ≠ []) := by
  obtain ⟨hal, -, -, ha1, ha2, ha3, ha4⟩ := (bboxValid_iff a).mp hva
  obtain ⟨hbl, -, -, hb1, hb2, hb3, hb4⟩ := (bboxValid_iff b).mp hvb
  rw [overlaps_iff]
  constructor
  · rintro ⟨h1, h2, r, hr, s, hs, hrs1, hrs2⟩
    have hpr := denorm_proper a.lon1 a.lon2 ha1 ha2 ha3 ha4 r hr
    have hps := denorm_proper b.lon1 b.lon2 hb1 hb2 hb3 hb4 s hs
    have hguard : ¬(max a.lat1 b.lat1 > min a.lat2 b.lat2) :=
      not_lt.mpr (max_le (le_min hal h1) (le_min h2 hbl))
    apply List.ne_nil_of_mem
      (a := BBox.mk (normalizeLonRange (max r.1 s.1, min r.2 s.2)).1
        (max a.lat1 b.lat1) (normalizeLonRange (max r.1 s.1, min r.2 s.2)).2
        (min a.lat2 b.lat2))
    simp only [intersect]
    rw [if_neg hguard]
    apply List.mem_map_of_mem
    apply mem_dedup_of_mem
    apply List.mem_map_of_mem
    rw [List.mem_flatMap]
    refine ⟨r, hr, ?_⟩
    rw [List.mem_flatMap]
    refine ⟨s, hs, ?_⟩
    unfold intersectRange
    simp only
    rw [if_neg (not_lt.mpr (max_le (le_min hpr hrs1) (le_min hrs2 hps)))]
    simp
  · intro hne
    obtain ⟨c, hc⟩ := List.exists_mem_of_ne_nil _ hne
    simp only [intersect] at hc
    split at hc
    · simp at hc
    · rename_i hg
      have hg' := not_lt.mp hg
      simp only [List.mem_map] at hc
      obtain ⟨r0, hr0, -⟩ := hc
      have hr0' := mem_of_mem_dedup hr0
      simp only [List.mem_map] at hr0'
      obtain ⟨q, hq, -⟩ := hr0'
      rw [List.mem_flatMap] at hq
      obtain ⟨r, hr, hq⟩ := hq
      rw [List.mem_flatMap] at hq
      obtain ⟨s, hs, hq⟩ := hq
      unfold intersectRange at hq
      simp only at hq
      split at hq
      · simp at hq
      · rename_i hms
        have hmm := not_lt.mp hms
        refine ⟨?_, ?_, r, hr, s, hs, ?_, ?_⟩
        · calc a.lat1 ≤ max a.lat1 b.lat1 := le_max_left _ _
            _ ≤ min a.lat2 b.lat2 := hg'
            _ ≤ b.lat2 := min_le_right _ _
        · calc b.lat1 ≤ max a.lat1 b.lat1 := le_max_right _ _
            _ ≤ min a.lat2 b.lat2 := hg'
            _ ≤ a.lat2 := min_le_left _ _
        · calc r.1 ≤ max r.1 s.1 := le_max_left _ _
            _ ≤ min r.2 s.2 := hmm
            _ ≤ s.2 := min_le_right _ _
        · calc s.1 ≤ max r.1 s.1 := le_max_right _ _
            _ ≤ min r.2 s.2 := hmm
            _ ≤ r.2 := min_le_left _ _

/-- C9 witness: the equivalence applied at two concrete valid boxes. -/
theorem C9_overlaps_iff_intersect_nonempty_witness :
    bboxValid (BBox.mk (-100) (-10) 100 10) = true ∧
      bboxValid (BBox.mk 105 (-10) 110 10) = true ∧
      (overlaps (BBox.mk (-100) (-10) 100 10) (BBox.mk 105 (-10) 110 10) = true ↔
        intersect (BBox.mk (-100) (-10) 100 10) (BBox.mk 105 (-10) 110 10) ≠ []) :=
  ⟨by decide, by decide,
    C9_overlaps_iff_intersect_nonempty (BBox.mk (-100) (-10) 100 10)
      (BBox.mk 105 (-10) 110 10) (by decide) (by decide)⟩

end GeoBBox
